import Mathlib

/-!
Shallow embedding of the xdsl-smt lowering passes:
  - `passes/comb_to_smt.py` (variadic/binary comb ops to SMT bit-vector ops),
  - `passes/pdl_to_smt.py` (PDL patterns and the known-bits dataflow extension
    to an SMT query),
  - `xdsl_smt/passes/lower_effects_with_memory.py` (memory-effect ops to
    explicit `Pair(Memory, Bool)` states),
  - `dialects/smt_bitvector_dialect.py` (bit-vector constant verification),
  - `xdsl_smt/cli/xdsl_tv.py` (exit-code behaviour of the `xdsl-tv` driver).

SSA values are represented by the SMT term they denote; emitting an operation
that computes a term is represented by building the corresponding term node.
Freshly declared constants (`DeclareConstOp`) are numbered by a counter.
-/

/-- SMT sorts, as used by the lowering passes.  `pairT` is the
`smt.utils.pair` sort, `memory` and `blockId` come from the memory dialect. -/
inductive SMTType where
  | bool : SMTType
  | bv : Nat → SMTType
  | memory : SMTType
  | blockId : SMTType
  | pairT : SMTType → SMTType → SMTType
deriving DecidableEq, Repr

/-- The binary bit-vector operations of `dialects/smt_bitvector_dialect.py`
that the lowering patterns target. -/
inductive BVBinKind where
  | add | sub | mul | udiv | sdiv | urem | srem
  | shl | lshr | ashr
  | andK | orK | xorK
deriving DecidableEq, Repr

/-- SMT expression terms built by the lowering passes.  Each constructor
corresponds to one operation of the `smt`, `smt.bv`, `smt.utils` or memory
dialect; `var n` is the `n`-th declared constant (a fresh SSA value).
`first`/`second` record the pair type annotation the source passes to
`FirstOp`/`SecondOp`. -/
inductive Term where
  | var : Nat → Term
  | boolConst : Bool → Term
  | bvConst : Nat → Nat → Term
  | bvBin : BVBinKind → Term → Term → Term
  | bvUle : Term → Term → Term
  | concatT : Term → Term → Term
  | andB : Term → Term → Term
  | orB : Term → Term → Term
  | notB : Term → Term
  | eqB : Term → Term → Term
  | distinctB : Term → Term → Term
  | iteB : Term → Term → Term → Term
  | pair : Term → Term → Term
  | first : SMTType → Term → Term
  | second : SMTType → Term → Term
  | getBlock : Term → Term → Term
  | getBlockBytes : Term → Term
  | getBlockSize : Term → Term
  | readBytes : Term → Term → Term
deriving DecidableEq, Repr

/-- The variadic comb operations handled by `variadic_op_pattern`. -/
inductive CombVariadicKind where
  | add | mul | andK | orK | xorK
deriving DecidableEq, Repr

/-- The binary comb operations handled by `trivial_binop_pattern`. -/
inductive CombBinKind where
  | divu | divs | modu | mods | shl | shru | shrs | sub
deriving DecidableEq, Repr

/-- Comparison predicates of `comb.icmp`. -/
inductive ICmpPredicate where
  | eq | ne | slt | sle | sgt | sge | ult | ule | ugt | uge
deriving DecidableEq, Repr

/-- A comb-dialect operation as seen by `comb_to_smt_patterns`: operands are
the SMT terms the operand SSA values denote, and `variadic`/`binop` carry the
result bit-width (`convert_type(op.result.typ)`). -/
inductive CombOp where
  | variadic : CombVariadicKind → List Term → Nat → CombOp
  | binop : CombBinKind → Term → Term → Nat → CombOp
  | icmp : ICmpPredicate → Term → Term → CombOp
  | parity : Term → CombOp
  | extract : Term → Nat → Nat → CombOp
  | concat : Term → List Term → CombOp
  | replicate : Term → Nat → CombOp
  | mux : Term → Term → Term → CombOp
deriving DecidableEq, Repr

/-- Target SMT operation and identity element of each variadic comb family,
as registered in `comb_to_smt_patterns` (lines 112-125 of
`passes/comb_to_smt.py`). -/
def variadicTarget : CombVariadicKind → BVBinKind × Nat
  | .add => (.add, 0)
  | .mul => (.mul, 1)
  | .orK => (.orK, 0)
  | .andK => (.andK, 1)
  | .xorK => (.xorK, 0)

/-- Target SMT operation of each trivial binary comb pattern. -/
def combBinTarget : CombBinKind → BVBinKind
  | .divu => .udiv
  | .divs => .sdiv
  | .modu => .urem
  | .mods => .srem
  | .shl => .shl
  | .shru => .lshr
  | .shrs => .ashr
  | .sub => .sub

/-- The loop of `variadic_op_pattern.match_and_rewrite`: starting from
`current_val = operands[0]`, each further operand is combined on the right
(`smt_op_type(operands=[current_val, operand])`). -/
def variadicFoldAux (k : BVBinKind) (current : Term) : List Term → Term
  | [] => current
  | o :: rest => variadicFoldAux k (Term.bvBin k current o) rest

/-- `variadic_op_pattern.match_and_rewrite` of `passes/comb_to_smt.py`:
zero operands are replaced by `bv_dialect.ConstantOp(empty_value, 1)`
(note the literal width `1` in the source); otherwise the operands are
folded pairwise. -/
def variadicOpPattern (k : BVBinKind) (emptyValue : Nat) : List Term → Term
  | [] => Term.bvConst emptyValue 1
  | o :: rest => variadicFoldAux k o rest

/-- The loop of `ConcatPattern.match_and_rewrite`. -/
def concatFoldAux (current : Term) : List Term → Term
  | [] => current
  | o :: rest => concatFoldAux (Term.concatT current o) rest

/-- Failure modes of the comb-to-smt lowering patterns. -/
inductive LowerError where
  | notImplemented : LowerError
deriving DecidableEq, Repr

/-- One step of the comb-to-smt lowering: `comb_to_smt_patterns` tries the
patterns in order, and each comb operation type is matched by exactly one
pattern.  `ICmpPattern`, `ParityPattern`, `ExtractPattern` and
`ReplicatePattern` raise `NotImplementedError`. -/
def lowerCombOp : CombOp → Except LowerError Term
  | .variadic k operands _w =>
      .ok (variadicOpPattern (variadicTarget k).1 (variadicTarget k).2 operands)
  | .binop k lhs rhs _w => .ok (Term.bvBin (combBinTarget k) lhs rhs)
  | .icmp _ _ _ => .error .notImplemented
  | .parity _ => .error .notImplemented
  | .extract _ _ _ => .error .notImplemented
  | .concat x rest => .ok (concatFoldAux x rest)
  | .replicate _ _ => .error .notImplemented
  | .mux c t e => .ok (Term.iteB c t e)

/-!
### PDL-to-SMT (`passes/pdl_to_smt.py`)

The pass walks the module in pre-order with one shared
`PDLToSMTRewriteContext` created at the start of `PDLToSMT.apply`.
We model the part of the walk the claims are about: the `pdl.df.get`,
`pdl.replace` and `pdl.df.attach` rewrites, threading the context state
(the `preconditions` list and a fresh-constant counter) through the ops in
document order, and the `pdl.pattern` rewrite that appends `check-sat`
after the inlined pattern body.
-/

/-- Top-level SMT-LIB commands emitted by the pass (the pure expression
operations become sub-terms of the asserted formulas). -/
inductive SMTCmd where
  | declareConst : Nat → SMTType → SMTCmd
  | assertCmd : Term → SMTCmd
  | checkSat : SMTCmd
deriving DecidableEq, Repr

/-- The mutable context of `pdl_to_smt.py` (`PDLToSMTRewriteContext`):
the ordered `preconditions` list, plus a counter for naming the fresh
constants created by `DeclareConstOp`. -/
structure PassState where
  preconds : List Term
  fresh : Nat
deriving DecidableEq, Repr

/-- `kb_analysis_correct(value, zeros, ones)` of `passes/pdl_to_smt.py`:
the known-bits soundness formula
`(value AND zeros) = 0 AND (value AND ones) = ones`, where `0` is the
bit-vector constant of `value`'s width `w`. -/
def kbAnalysisCorrect (value zeros ones : Term) (w : Nat) : Term :=
  Term.andB
    (Term.eqB (Term.bvBin .andK value zeros) (Term.bvConst 0 w))
    (Term.eqB (Term.bvBin .andK value ones) ones)

/-- The loop shared by `ReplaceRewrite` and `AttachOpRewrite`:
`and_preconditions = preconditions[0]` and then
`AndOp(and_preconditions, p)` for each later precondition `p`. -/
def foldAndPreconditions (p : Term) : List Term → Term
  | [] => p
  | q :: rest => foldAndPreconditions (Term.andB p q) rest

/-- The formula asserted by `ReplaceRewrite.match_and_rewrite`: the source
builds `DistinctOp(replacing_value, replaced_op.results[0])` and, when
preconditions exist, `AndOp(distinct_op.res, and_preconditions)`. -/
def replaceAssertTerm (replacedResult replacingValue : Term)
    (preconds : List Term) : Term :=
  let distinctT := Term.distinctB replacingValue replacedResult
  match preconds with
  | [] => distinctT
  | p :: rest => Term.andB distinctT (foldAndPreconditions p rest)

/-- The formula asserted by `AttachOpRewrite.match_and_rewrite`:
`NotOp(kb_analysis_correct(...))`, conjoined on the right of the folded
preconditions when those exist. -/
def attachAssertTerm (value zeros ones : Term) (w : Nat)
    (preconds : List Term) : Term :=
  let incorrect := Term.notB (kbAnalysisCorrect value zeros ones w)
  match preconds with
  | [] => incorrect
  | p :: rest => Term.andB (foldAndPreconditions p rest) incorrect

/-- Result of `GetOpRewrite.match_and_rewrite`: the two values the matched
`pdl.df.get`'s results are rewired to, the updated context, and the
declared constants it emits. -/
structure GetRewriteResult where
  zerosRes : Term
  onesRes : Term
  newState : PassState
  emitted : List SMTCmd
deriving DecidableEq, Repr

/-- `GetOpRewrite.match_and_rewrite` of `passes/pdl_to_smt.py`: declare two
fresh constants of the value's bit-vector type, append
`kb_analysis_correct(value, zeros, ones)` to the precondition list, and
replace the op's results with `(zeros, ones)`. -/
def getOpRewrite (st : PassState) (value : Term) (w : Nat) : GetRewriteResult :=
  let zeros := Term.var st.fresh
  let ones := Term.var (st.fresh + 1)
  { zerosRes := zeros
    onesRes := ones
    newState :=
      { preconds := st.preconds ++ [kbAnalysisCorrect value zeros ones w]
        fresh := st.fresh + 2 }
    emitted := [SMTCmd.declareConst st.fresh (SMTType.bv w),
                SMTCmd.declareConst (st.fresh + 1) (SMTType.bv w)] }

/-- The PDL / dataflow operations of a pattern body, in document order.
Operand SSA values are represented by the terms they denote;
`getOp value w` is a `pdl.df.get` on a value of type `BitVec(w)`,
`replaceOp a b` a `pdl.replace` whose replaced operation has the single
result `a` and whose replacing value is `b`, and `attachOp v zeros ones w`
a `pdl.df.attach`. -/
inductive PdlOp where
  | getOp : Term → Nat → PdlOp
  | replaceOp : Term → Term → PdlOp
  | attachOp : Term → Term → Term → Nat → PdlOp
deriving DecidableEq, Repr

/-- Process one PDL op with the current context, as the corresponding
rewrite pattern does, returning the updated context and the emitted
top-level commands. -/
def processOp (st : PassState) : PdlOp → PassState × List SMTCmd
  | .getOp v w =>
      let r := getOpRewrite st v w
      (r.newState, r.emitted)
  | .replaceOp a b =>
      (st, [SMTCmd.assertCmd (replaceAssertTerm a b st.preconds)])
  | .attachOp v zeros ones w =>
      (st, [SMTCmd.assertCmd (attachAssertTerm v zeros ones w st.preconds)])

/-- Process the ops of a pattern body in document order, threading the
context. -/
def processOps (st : PassState) : List PdlOp → PassState × List SMTCmd
  | [] => (st, [])
  | op :: rest =>
      let (st1, cmds1) := processOp st op
      let (st2, cmds2) := processOps st1 rest
      (st2, cmds1 ++ cmds2)

/-- `PatternRewrite.match_and_rewrite`: inline the pattern body, then
insert a `CheckSatOp` after it. -/
def processPattern (st : PassState) (body : List PdlOp) :
    PassState × List SMTCmd :=
  let (st1, cmds) := processOps st body
  (st1, cmds ++ [SMTCmd.checkSat])

/-- Process the `pdl.pattern` ops of a module in document order with a
single shared context, as the walker of `PDLToSMT.apply` does. -/
def processPatternsAux (st : PassState) :
    List (List PdlOp) → PassState × List SMTCmd
  | [] => (st, [])
  | p :: rest =>
      let (st1, cmds1) := processPattern st p
      let (st2, cmds2) := processPatternsAux st1 rest
      (st2, cmds1 ++ cmds2)

/-- `PDLToSMT.apply`: a fresh `PDLToSMTRewriteContext` (empty
precondition list) is created for the invocation, then the module is
rewritten. -/
def processModule (patterns : List (List PdlOp)) : List SMTCmd :=
  (processPatternsAux ⟨[], 0⟩ patterns).2

/-- The known-bits preconditions contributed by the `pdl.df.get` ops of an
op list, in left-to-right document order, given the fresh-constant counter
at the start of the list. -/
def getsPreconds (fresh : Nat) : List PdlOp → List Term
  | [] => []
  | .getOp v w :: rest =>
      kbAnalysisCorrect v (Term.var fresh) (Term.var (fresh + 1)) w ::
        getsPreconds (fresh + 2) rest
  | .replaceOp _ _ :: rest => getsPreconds fresh rest
  | .attachOp _ _ _ _ :: rest => getsPreconds fresh rest

/-- Number of `pdl.df.get` ops in an op list. -/
def countGets : List PdlOp → Nat
  | [] => 0
  | .getOp _ _ :: rest => countGets rest + 1
  | .replaceOp _ _ :: rest => countGets rest
  | .attachOp _ _ _ _ :: rest => countGets rest

/-!
### Effect lowering (`xdsl_smt/passes/lower_effects_with_memory.py`)
-/

/-- `new_state_type` of `lower_effects_with_memory.py`:
`Pair(Memory, Bool)`. -/
def newStateType : SMTType := SMTType.pairT SMTType.memory SMTType.bool

/-- `new_pointer_type` of `lower_effects_with_memory.py`:
`Pair(BlockID, BitVec(64))`. -/
def newPointerType : SMTType := SMTType.pairT SMTType.blockId (SMTType.bv 64)

/-- `get_memory_and_ub_from_state`: unwrap a state value with
`FirstOp(state, new_state_type)` / `SecondOp(state, new_state_type)`. -/
def getMemoryAndUbFromState (state : Term) : Term × Term :=
  (Term.first newStateType state, Term.second newStateType state)

/-- `create_state`: wrap memory and ub flag back with `PairOp`. -/
def createState (memory ub : Term) : Term :=
  Term.pair memory ub

/-- `get_block_id_and_offset_from_pointer`: unwrap a pointer value with
`FirstOp(pointer, new_pointer_type)` / `SecondOp(pointer, new_pointer_type)`. -/
def getBlockIdAndOffsetFromPointer (pointer : Term) : Term × Term :=
  (Term.first newPointerType pointer, Term.second newPointerType pointer)

/-- `check_bounds(offset, block)` of `lower_effects_with_memory.py`: read
the block size, compute `offset_end = AddOp(offset, block_size)` and return
`UleOp(offset_end, block_size)` (this is the formula as written in the
source). -/
def checkBounds (offset block : Term) : Term :=
  let blockSize := Term.getBlockSize block
  let offsetEnd := Term.bvBin .add offset blockSize
  Term.bvUle offsetEnd blockSize

/-- `LowerRead.match_and_rewrite`: unwrap the pointer and state, fetch the
block and its bytes, OR the ub flag with the bounds check, read the bytes,
and replace the `mem_effect.read` with the pair state and the read value. -/
def lowerRead (state pointer : Term) : Term × Term :=
  let (blockId, offset) := getBlockIdAndOffsetFromPointer pointer
  let (memory, ub) := getMemoryAndUbFromState state
  let block := Term.getBlock memory blockId
  let bytes := Term.getBlockBytes block
  let offsetInBounds := checkBounds offset block
  let newUb := Term.orB ub offsetInBounds
  let readVal := Term.readBytes bytes offset
  (createState memory newUb, readVal)

/-- First component of a `pair` term, when the term is syntactically a
pair. -/
def pairFst : Term → Option Term
  | .pair a _ => some a
  | _ => none

/-- Second component of a `pair` term, when the term is syntactically a
pair. -/
def pairSnd : Term → Option Term
  | .pair _ b => some b
  | _ => none

/-!
### Bit-vector constants (`dialects/smt_bitvector_dialect.py`)
-/

/-- `BitVectorValue.verify`: raise `ValueError("BitVector value out of
range")` unless `0 <= value < 2 ** width`. -/
def bitVectorValueVerify (value : Int) (width : Nat) : Except String Unit :=
  if ¬ (0 ≤ value ∧ value < (2 : Int) ^ width) then
    Except.error "BitVector value out of range"
  else
    Except.ok ()

/-!
### The `xdsl-tv` entry point (`xdsl_smt/cli/xdsl_tv.py`)
-/

/-- The facts about a run of `xdsl-tv` that determine its exit code:
whether parsing (and lowering/verification) of the two files succeeded,
the shape of the two lowered modules, and the argument counts of the two
functions. -/
structure TvInput where
  parseOk : Bool
  beforeOpsCount : Nat
  afterOpsCount : Nat
  beforeFirstIsDefineFun : Bool
  afterFirstIsDefineFun : Bool
  beforeNumArgs : Nat
  afterNumArgs : Nat
deriving DecidableEq, Repr

/-- Exit code of `main` in `xdsl_smt/cli/xdsl_tv.py`.  An uncaught parse or
verification exception terminates the interpreter with status 1; the
single-`DefineFunOp` module check calls `exit(1)`; `function_refinement`
calls `exit(1)` when either function has arguments; otherwise the script is
printed and the process exits 0. -/
def xdslTvExitCode (i : TvInput) : Nat :=
  if ¬ i.parseOk then 1
  else if ¬ (i.beforeOpsCount = i.afterOpsCount
      ∧ i.beforeFirstIsDefineFun = true
      ∧ i.afterFirstIsDefineFun = true) then 1
  else if ¬ (i.beforeNumArgs = 0 ∧ i.afterNumArgs = 0) then 1
  else 0

/-- `pdl.df.get` preconditions contributed by a list of patterns processed
with one shared context, with the fresh counter threaded through. -/
def patsGetsPreconds (fresh : Nat) : List (List PdlOp) → List Term
  | [] => []
  | p :: rest => getsPreconds fresh p ++ patsGetsPreconds (fresh + 2 * countGets p) rest

/-- Number of `pdl.df.get` ops in a list of patterns. -/
def countGetsPats : List (List PdlOp) → Nat
  | [] => 0
  | p :: rest => countGets p + countGetsPats rest

/-!
### Helper lemmas
-/

/-- The variadic lowering loop is a left fold. -/
theorem variadicFoldAux_eq_foldl (k : BVBinKind) (c : Term) (l : List Term) :
    variadicFoldAux k c l = List.foldl (Term.bvBin k) c l := by
  induction l generalizing c with
  | nil => rfl
  | cons o rest ih => simpa [variadicFoldAux] using ih (Term.bvBin k c o)

/-- Context state after processing a pattern body: the preconditions of
its `pdl.df.get` ops are appended in document order, and the fresh counter
advances by two per get. -/
theorem processOps_state (ops : List PdlOp) : ∀ st : PassState,
    (processOps st ops).1 =
      ⟨st.preconds ++ getsPreconds st.fresh ops,
       st.fresh + 2 * countGets ops⟩ := by
  induction ops with
  | nil => intro st; simp [processOps, getsPreconds, countGets]
  | cons op rest ih =>
    intro st
    cases op with
    | getOp v w =>
      simp only [processOps, processOp, getOpRewrite, ih, getsPreconds, countGets]
      simp only [PassState.mk.injEq, List.append_assoc, List.singleton_append]
      exact ⟨trivial, by omega⟩
    | replaceOp a b =>
      simp only [processOps, processOp, ih, getsPreconds, countGets]
    | attachOp v zs os w =>
      simp only [processOps, processOp, ih, getsPreconds, countGets]

/-- Context state after processing a list of patterns with one shared
context. -/
theorem processPatternsAux_state (pats : List (List PdlOp)) :
    ∀ st : PassState,
    (processPatternsAux st pats).1 =
      ⟨st.preconds ++ patsGetsPreconds st.fresh pats,
       st.fresh + 2 * countGetsPats pats⟩ := by
  induction pats with
  | nil => intro st; simp [processPatternsAux, patsGetsPreconds, countGetsPats]
  | cons p rest ih =>
    intro st
    simp only [processPatternsAux, processPattern, ih, processOps_state,
      patsGetsPreconds, countGetsPats]
    simp only [PassState.mk.injEq, List.append_assoc]
    exact ⟨trivial, by omega⟩

/-!
### Claims
-/

/-- C1, counterexample: for a pattern whose body is a single `pdl.replace`
under an empty precondition list, with `a` the replaced operation's single
result (`var 0`) and `b` the replacing value (`var 1`), the emitted SMT is
`assert(distinct(b, a))` followed by `check-sat` — and as an emitted
operand order this differs from the claimed `assert(distinct(a, b))`. -/
theorem c1_distinct_order_counterexample :
    processPattern ⟨[], 0⟩ [PdlOp.replaceOp (Term.var 0) (Term.var 1)] =
      (⟨[], 0⟩,
       [SMTCmd.assertCmd (Term.distinctB (Term.var 1) (Term.var 0)),
        SMTCmd.checkSat]) ∧
    SMTCmd.assertCmd (Term.distinctB (Term.var 1) (Term.var 0)) ≠
      SMTCmd.assertCmd (Term.distinctB (Term.var 0) (Term.var 1)) :=
  ⟨rfl, by decide⟩

/-- C1, amended: for every `pdl.replace` handled by the pass, with `a` the
replaced operation's single result and `b` the replacing value: under an
empty precondition list the emitted SMT is `assert(distinct(b, a))`
followed by `check-sat`; with preconditions `p :: ps` the emitted
assertion is `assert(AND(distinct(b, a), P))` where `P` is the
left-associated conjunction of the preconditions. -/
theorem c1_replace_emission (a b p : Term) (ps : List Term) (n : Nat) :
    processPattern ⟨[], n⟩ [PdlOp.replaceOp a b] =
      (⟨[], n⟩,
       [SMTCmd.assertCmd (Term.distinctB b a), SMTCmd.checkSat]) ∧
    processPattern ⟨p :: ps, n⟩ [PdlOp.replaceOp a b] =
      (⟨p :: ps, n⟩,
       [SMTCmd.assertCmd
          (Term.andB (Term.distinctB b a) (foldAndPreconditions p ps)),
        SMTCmd.checkSat]) :=
  ⟨rfl, rfl⟩

/-- C2, code evaluated at the failing input: lowering a zero-operand
`comb.add` whose result type is `BitVec(8)` yields the constant `0` of
width `1` (the source hard-codes width `1`), not the width-8 identity
constant the claim requires. -/
theorem c2_zero_operand_width_eval :
    lowerCombOp (CombOp.variadic CombVariadicKind.add [] 8) =
      Except.ok (Term.bvConst 0 1) ∧
    Term.bvConst 0 1 ≠ Term.bvConst 0 8 :=
  ⟨rfl, by decide⟩

/-- C3: for every variadic comb family, n ≥ 2 operands lower to the
left-associative fold of the corresponding binary SMT operation in operand
order (in particular `comb.add x, y, x` lowers to
`bvadd(bvadd(x, y), x)`), and a single operand lowers to that operand
itself. -/
theorem c3_variadic_left_fold (k : CombVariadicKind) (x y : Term)
    (rest : List Term) (w : Nat) :
    lowerCombOp (CombOp.variadic k (x :: y :: rest) w) =
      Except.ok (List.foldl (Term.bvBin (variadicTarget k).1)
        (Term.bvBin (variadicTarget k).1 x y) rest) ∧
    lowerCombOp (CombOp.variadic k [x] w) = Except.ok x ∧
    lowerCombOp (CombOp.variadic CombVariadicKind.add [x, y, x] w) =
      Except.ok (Term.bvBin BVBinKind.add (Term.bvBin BVBinKind.add x y) x) := by
  refine ⟨?_, rfl, rfl⟩
  simp [lowerCombOp, variadicOpPattern, variadicFoldAux, variadicFoldAux_eq_foldl]

/-- C4: for every `pdl.df.get` on a value `v` of type `BitVec(w)`, the
pass introduces two fresh declared constants of that bit-vector type,
appends the precondition `(v AND zeros) = 0 AND (v AND ones) = ones` to
the precondition list, and rewires the get's two results to
`(zeros, ones)`. -/
theorem c4_get_rewrite (st : PassState) (v : Term) (w : Nat) :
    (getOpRewrite st v w).zerosRes = Term.var st.fresh ∧
    (getOpRewrite st v w).onesRes = Term.var (st.fresh + 1) ∧
    (getOpRewrite st v w).emitted =
      [SMTCmd.declareConst st.fresh (SMTType.bv w),
       SMTCmd.declareConst (st.fresh + 1) (SMTType.bv w)] ∧
    (getOpRewrite st v w).newState.preconds =
      st.preconds ++
        [Term.andB
          (Term.eqB (Term.bvBin BVBinKind.andK v (Term.var st.fresh))
            (Term.bvConst 0 w))
          (Term.eqB (Term.bvBin BVBinKind.andK v (Term.var (st.fresh + 1)))
            (Term.var (st.fresh + 1)))] :=
  ⟨rfl, rfl, rfl, rfl⟩

/-- C5, counterexample: in a module with two patterns — the first
containing a `pdl.df.get`, the second only a `pdl.replace` — the assertion
emitted for the second pattern conjoins the first pattern's known-bits
precondition, so the precondition list is not per-pattern. -/
theorem c5_cross_pattern_counterexample :
    processModule
        [[PdlOp.getOp (Term.var 100) 8],
         [PdlOp.replaceOp (Term.var 200) (Term.var 201)]] =
      [SMTCmd.declareConst 0 (SMTType.bv 8),
       SMTCmd.declareConst 1 (SMTType.bv 8),
       SMTCmd.checkSat,
       SMTCmd.assertCmd
         (Term.andB (Term.distinctB (Term.var 201) (Term.var 200))
           (kbAnalysisCorrect (Term.var 100) (Term.var 0) (Term.var 1) 8)),
       SMTCmd.checkSat] ∧
    Term.andB (Term.distinctB (Term.var 201) (Term.var 200))
        (kbAnalysisCorrect (Term.var 100) (Term.var 0) (Term.var 1) 8) ≠
      Term.distinctB (Term.var 201) (Term.var 200) :=
  ⟨rfl, by decide⟩

/-- C5, amended: the precondition list is a per-invocation vector:
preconditions of `pdl.df.get` ops are accumulated in left-to-right
document order, both within one pattern body and across all the patterns
processed by one invocation of the pass (which starts from an empty
context). -/
theorem c5_preconditions_accumulation (st : PassState) (ops : List PdlOp)
    (pats : List (List PdlOp)) :
    (processOps st ops).1.preconds = st.preconds ++ getsPreconds st.fresh ops ∧
    (processPatternsAux ⟨[], 0⟩ pats).1.preconds = patsGetsPreconds 0 pats := by
  constructor
  · rw [processOps_state]
  · rw [processPatternsAux_state]; simp

/-- C6: lowering `mem_effect.read` produces a result state that is a pair
at the state type `Pair(Memory, Bool)` whose Bool (UB) component is the OR
of the input state's UB flag with the bounds check, and the bounds check
computes `offset + block_size` and requires the sum to be unsigned-`<=`
`block_size`. -/
theorem c6_read_ub_or_bounds (state pointer : Term) :
    (lowerRead state pointer).1 =
      Term.pair (Term.first newStateType state)
        (Term.orB (Term.second newStateType state)
          (Term.bvUle
            (Term.bvBin BVBinKind.add (Term.second newPointerType pointer)
              (Term.getBlockSize
                (Term.getBlock (Term.first newStateType state)
                  (Term.first newPointerType pointer))))
            (Term.getBlockSize
              (Term.getBlock (Term.first newStateType state)
                (Term.first newPointerType pointer))))) ∧
    newStateType = SMTType.pairT SMTType.memory SMTType.bool :=
  ⟨rfl, rfl⟩

/-- C7: verification of `smt.bv.constant <v : w>` succeeds iff
`0 ≤ v < 2 ^ w`, and fails with the out-of-range error exactly
otherwise. -/
theorem c7_bv_constant_verify (v : Int) (w : Nat) :
    (bitVectorValueVerify v w = Except.ok () ↔ 0 ≤ v ∧ v < (2 : Int) ^ w) ∧
    (bitVectorValueVerify v w = Except.error "BitVector value out of range" ↔
      ¬ (0 ≤ v ∧ v < (2 : Int) ^ w)) := by
  unfold bitVectorValueVerify
  by_cases h : 0 ≤ v ∧ v < (2 : Int) ^ w <;> simp [h]

/-- C8: the comb-to-smt lowering fails with NotImplemented on
`comb.icmp` (for every predicate), `comb.parity`, `comb.extract` and
`comb.replicate`, producing no lowered output. -/
theorem c8_not_implemented (p : ICmpPredicate) (x y : Term) (lo len n : Nat) :
    lowerCombOp (CombOp.icmp p x y) = Except.error LowerError.notImplemented ∧
    lowerCombOp (CombOp.parity x) = Except.error LowerError.notImplemented ∧
    lowerCombOp (CombOp.extract x lo len) =
      Except.error LowerError.notImplemented ∧
    lowerCombOp (CombOp.replicate x n) =
      Except.error LowerError.notImplemented :=
  ⟨rfl, rfl, rfl, rfl⟩

/-- C9, counterexample: on an input whose functions parse and lower to
single `define-fun` modules but whose before-function has one argument
(an unsupported construct), `xdsl-tv` exits with code 1, not 2. -/
theorem c9_unsupported_exit_code :
    xdslTvExitCode ⟨true, 1, 1, true, true, 1, 0⟩ = 1 ∧ (1 : Nat) ≠ 2 := by
  decide

/-- C9, amended: `xdsl-tv` exits with code 0 on success and code 1 in
every failure case — parse or verification failure, a module pair that is
not two single `define-fun` modules, and the unsupported construct of
functions with arguments all exit 1; exit code 2 is never produced. -/
theorem c9_exit_codes (i : TvInput) :
    (xdslTvExitCode i = 0 ∨ xdslTvExitCode i = 1) ∧
    (xdslTvExitCode i = 0 ↔
      (i.parseOk = true ∧ i.beforeOpsCount = i.afterOpsCount ∧
        i.beforeFirstIsDefineFun = true ∧ i.afterFirstIsDefineFun = true ∧
        i.beforeNumArgs = 0 ∧ i.afterNumArgs = 0)) := by
  unfold xdslTvExitCode
  split_ifs with h1 h2 h3 <;> simp_all

/-- C10: the memory component of the state produced by lowering
`mem_effect.read` is exactly the memory component unwrapped from the
input state — the lowering changes only the UB flag, never the memory. -/
theorem c10_read_preserves_memory (state pointer : Term) :
    pairFst (lowerRead state pointer).1 =
      some (Term.first newStateType state) :=
  rfl
